import Mathlib

/-!
Shallow embedding of the method-signature transformation pipeline of
`robusta-codegen/src/transformation/mod.rs` (the `robusta` JNI bridge
code generator), together with theorems settling the frozen claims
about it.

The embedding models the fragment of the `syn` AST that the
transformation inspects: paths with angle-bracketed generic arguments,
lifetime definitions, generic parameter lists, types, patterns,
function arguments, signatures and impl items.  Spans are not modelled;
diagnostics carry a severity, a site and a message instead.
-/

set_option linter.unusedVariables false

namespace Robusta

/-- Diagnostic severity, standing for `emit_warning!` / `emit_error!`. -/
inductive Severity where
  | warning
  | error
deriving DecidableEq, Repr

/-- A generic argument inside angle brackets (`syn::GenericArgument`):
only lifetimes are ever inspected by the transformation, every other
variant is collapsed into `other`. -/
inductive GenericArgument where
  | lifetime (ident : String)
  | other
deriving DecidableEq, Repr

/-- A path segment (`syn::PathSegment`): an identifier plus optional
angle-bracketed arguments.  `args = none` stands for
`PathArguments::None` (or parenthesized arguments, which the code
treats the same way); `args = some l` stands for
`PathArguments::AngleBracketed` with argument list `l`. -/
structure PathSegment where
  ident : String
  args : Option (List GenericArgument)
deriving DecidableEq, Repr

/-- A type path (`syn::Path`). -/
structure Path where
  segments : List PathSegment
deriving DecidableEq, Repr

/-- A lifetime parameter declaration (`syn::LifetimeDef`): its
identifier (without the apostrophe) and the identifiers of its outlives
bounds. -/
structure LifetimeDef where
  ident : String
  bounds : List String
deriving DecidableEq, Repr

/-- A generic parameter (`syn::GenericParam`). -/
inductive GenericParam where
  | lifetime (d : LifetimeDef)
  | type (ident : String)
  | const (ident : String)
deriving DecidableEq, Repr

/-- A generics list (`syn::Generics`). -/
structure Generics where
  params : List GenericParam
deriving DecidableEq, Repr

/-- The four conversion traits of `::robusta_jni::convert` whose
associated types and operations the transformation inserts. -/
inductive ConvTrait where
  | tryFromJavaValue
  | fromJavaValue
  | intoJavaValue
  | tryIntoJavaValue
deriving DecidableEq, Repr

/-- The fragment of `syn::Type` the transformation inspects.
`assoc base tr lts item` stands for the qualified path type
written in the source as the quasi-quotation
(for example, assoc T tryFromJavaValue [env, borrow] Source is the
rewritten parameter type produced for original type T in safe mode). -/
inductive Ty where
  | path (p : Path)
  | reference (lifetime : Option String) (mutability : Bool) (elem : Ty)
  | tuple (elems : List Ty)
  | assoc (base : Ty) (tr : ConvTrait) (lifetimes : List String) (item : String)
  | other

/-- The fragment of `syn::Pat` the transformation inspects:
identifier patterns (with by-ref / mut flags and an optional
sub-pattern marker) and everything else. -/
inductive Pat where
  | ident (byRef : Bool) (mutability : Bool) (name : String) (subpat : Bool)
  | wild
  | other
deriving DecidableEq, Repr

/-- An attribute path, as its list of segments (an attribute path with
exactly one segment is one whose `get_ident()` is `Some`). -/
abbrev AttrPath := List String

/-- A typed function argument (`syn::PatType`). -/
structure PatType where
  attrs : List AttrPath
  pat : Pat
  ty : Ty

/-- A function argument (`syn::FnArg`): either a `self` receiver
(with optional reference `&` token carrying an optional lifetime, and a
mutability flag) or a typed argument. -/
inductive FnArg where
  | receiver (attrs : List AttrPath) (reference : Option (Option String)) (mutability : Bool)
  | typed (t : PatType)

/-- A return type (`syn::ReturnType`). -/
inductive ReturnType where
  | default
  | type (t : Ty)

/-- A function signature (`syn::Signature`), restricted to the fields
the transformation reads.  `abi = some (some s)` stands for
an extern marker with literal name `s`, `abi = some none` for a bare
extern marker without a name, `abi = none` for no extern marker. -/
structure Signature where
  abi : Option (Option String)
  ident : String
  generics : Generics
  inputs : List FnArg
  output : ReturnType

/-- Visibility of an impl item (`syn::Visibility`), collapsed to
whether it is `pub` (the only distinction the code makes). -/
inductive Visibility where
  | pub
  | inherited
deriving DecidableEq, Repr

/-- A method inside an impl block (`syn::ImplItemMethod`), restricted
to the fields the transformation reads. -/
structure ImplItemMethod where
  attrs : List AttrPath
  vis : Visibility
  sig : Signature

/-- An impl item (`syn::ImplItem`): a method or anything else. -/
inductive ImplItem where
  | method (m : ImplItemMethod)
  | other

/-- The classification tag (`ImplItemType`, mod.rs lines 30 to 34). -/
inductive ImplItemType where
  | Exported
  | Imported
  | Unexported
deriving DecidableEq, Repr

/-- Where a diagnostic is attached.  The return-type error site is
modelled without its payload so diagnostics stay decidable. -/
inductive DiagSite where
  | onPath (p : Path)
  | onLifetimeDef (d : LifetimeDef)
  | onReturnType
deriving DecidableEq, Repr

/-- A diagnostic, modelling `emit_warning!` / `emit_error!` calls.
Messages paraphrase the source messages without punctuation that the
model does not need. -/
structure Diag where
  severity : Severity
  site : DiagSite
  message : String
deriving DecidableEq, Repr

/-- `SafeParams` (mod.rs lines 700 to 705): optional exception class
and message carried by safe mode. -/
structure SafeParams where
  exception_class : Option String
  message : Option String
deriving DecidableEq, Repr

/-- `CallType` (mod.rs lines 707 to 711). -/
inductive CallType where
  | safe (params : Option SafeParams)
  | unchecked
deriving DecidableEq, Repr

/-- The expressions produced by call-expression synthesis
(`JNISignature::signature_call`).  `tryFromJavaValue x` stands for
the safe conversion applied to binding `x` and `&env`, with its error
propagated by the question-mark operator; `fromJavaValue x` stands for
the unchecked conversion applied to `x` and `&env`; `refEnv` is the
literal argument `&env`; `call s m args` is the qualified call of
method `m` of type `s` on `args`. -/
inductive Expr where
  | tryFromJavaValue (arg : String)
  | fromJavaValue (arg : String)
  | refEnv
  | call (structName : String) (methodName : String) (args : List Expr)

/-- Modelled from the spec: `utils::get_abi` is declared in
`robusta-codegen/src/utils.rs`, which is not under `src/`.  Per the
spec (section 4.1, "given a method's declared calling-convention
marker string") it extracts the extern marker's literal name from a
signature; the inline extraction in `ImplCleaner` (mod.rs lines 313 to
317) performs the identical computation. -/
def get_abi (sig : Signature) : Option String :=
  sig.abi.bind id

/-- Modelled from the spec: `utils::is_self_method` is declared in
`robusta-codegen/src/utils.rs`, which is not under `src/`.  Per the
spec (sections 4.2 and 4.4), a method is a self-method when it has an
implicit receiver or an explicitly-typed parameter whose pattern is
the identifier `self` (the already-desugared form). -/
def is_self_method (sig : Signature) : Bool :=
  sig.inputs.any fun a =>
    match a with
    | FnArg.receiver _ _ _ => true
    | FnArg.typed t =>
      match t.pat with
      | Pat.ident _ _ n _ => n == "self"
      | _ => false

/-- Whether an argument is an explicit environment-handle parameter:
a typed argument whose type is a reference to a path whose last
segment is the identifier JNIEnv. -/
def is_env_arg (a : FnArg) : Bool :=
  match a with
  | FnArg.typed t =>
    match t.ty with
    | Ty.reference _ _ (Ty.path p) =>
      (p.segments.getLast?.map PathSegment.ident) == some "JNIEnv"
    | _ => false
  | _ => false

/-- Modelled from the spec: `utils::get_env_arg` is declared in
`robusta-codegen/src/utils.rs`, which is not under `src/`.  Per the
spec (section 4.4): detect an explicit environment-handle parameter,
declared by reference with the bridge's environment-handle type, at
the first position for free functions and the second position for
self-methods; remove it from the parameter list and retain it as a
marker. -/
def get_env_arg (sig : Signature) : Signature × Option FnArg :=
  let idx := if is_self_method sig then 1 else 0
  match sig.inputs.get? idx with
  | some a =>
    if is_env_arg a then
      ({ sig with inputs := sig.inputs.eraseIdx idx }, some a)
    else
      (sig, none)
  | none => (sig, none)

/-- Modelled from the spec: `utils::canonicalize_path` is declared in
`robusta-codegen/src/utils.rs`, which is not under `src/`.  It strips
every segment's generic arguments, leaving the bare identifier path
used as the package-lookup key. -/
def canonicalize_path (p : Path) : Path :=
  { segments := p.segments.map fun s => { ident := s.ident, args := none } }

/-- The string form of a canonicalized path used as package-map key
(`canonical_path.to_token_stream().to_string().replace(" ", "")`,
mod.rs lines 56 to 60). -/
def path_to_string (p : Path) : String :=
  String.intercalate "::" (p.segments.map PathSegment.ident)

/-- Modelled from the spec: `utils::unique_ident` is declared in
`robusta-codegen/src/utils.rs`, which is not under `src/`.  Per the
spec (section 9, collision-resistant identifier synthesis), it
deterministically mangles the given base string into a fresh
identifier; the model keeps the base string itself, which already
carries the struct-name and method-name disambiguator. -/
def unique_ident (base : String) : String :=
  base

/-- The receiver binding name synthesized by the freestanding
transformer for struct `sn` and method `fn`
(mod.rs lines 398 to 401 and 419 to 422). -/
def receiver_ident (sn fnName : String) : String :=
  unique_ident ("receiver_" ++ sn ++ "_" ++ fnName)

/-- `ImplExportVisitor::visit_impl_item` (mod.rs lines 240 to 255):
the tag paired with an impl item. -/
def ImplExportVisitor.classify (node : ImplItem) : ImplItemType :=
  match node with
  | ImplItem.method m =>
    let abi := get_abi m.sig
    if abi == some "jni" then ImplItemType.Exported
    else if abi == some "java" then ImplItemType.Imported
    else ImplItemType.Unexported
  | ImplItem.other => ImplItemType.Unexported

/-- `ImplCleaner::fold_impl_item_method` (mod.rs lines 311 to 333):
for a public method with extern marker jni, drop the marker and keep
only those attributes whose path is a single identifier different
from call_type; leave every other method unchanged. -/
def ImplCleaner.fold_impl_item_method (node : ImplItemMethod) : ImplItemMethod :=
  let abi := node.sig.abi.bind id
  match node.vis, abi with
  | Visibility.pub, some "jni" =>
    { node with
      sig := { node.sig with abi := none },
      attrs := node.attrs.filter fun a =>
        match a with
        | [i] => i != "call_type"
        | _ => false }
  | _, _ => node

/-- `ImplCleaner` as a fold over impl items (the default fold leaves
non-method items unchanged). -/
def ImplCleaner.fold_impl_item (node : ImplItem) : ImplItem :=
  match node with
  | ImplItem.method m => ImplItem.method (ImplCleaner.fold_impl_item_method m)
  | ImplItem.other => ImplItem.other

/-- `needs_env_lifetime` check of `FreestandingTransformer::fold_fn_arg`
(mod.rs lines 357 to 369): some segment of the struct path has
angle-bracketed arguments whose lifetime arguments are all different
from env. -/
def needs_env_lifetime (struct_type : Path) : Bool :=
  struct_type.segments.any fun s =>
    match s.args with
    | some args =>
      (args.filterMap fun g =>
        match g with
        | GenericArgument.lifetime l => some l
        | _ => none).all fun l => l != "env"
    | none => false

/-- `FreestandingTransformer` (mod.rs lines 335 to 348). -/
structure FreestandingTransformer where
  struct_type : Path
  struct_name : String
  fn_name : String
deriving Repr

/-- The warning emitted by `FreestandingTransformer::fold_fn_arg` when
the enclosing type's path fails the env-lifetime check (mod.rs lines
371 to 373), attached to the struct type. -/
def missing_env_warning (p : Path) : Diag :=
  { severity := Severity.warning,
    site := DiagSite.onPath p,
    message := "must have one env lifetime in impl to support self methods when using lifetime-parametrized struct" }

/-- `FreestandingTransformer::fold_fn_arg` (mod.rs lines 352 to 432),
returning the rewritten argument together with the diagnostics
emitted.  A receiver is replaced by a typed first parameter of the
enclosing self type (a reference type preserving the receiver's
reference token, lifetime and mutability if the receiver was a
reference, the plain struct path otherwise) bound to the synthesized
receiver identifier; an explicitly-typed parameter whose pattern is
the identifier self is renamed the same way, keeping its declared
type; every other argument is returned unchanged.  A warning is
emitted at the struct type when `needs_env_lifetime` holds. -/
def FreestandingTransformer.fold_fn_arg (ft : FreestandingTransformer)
    (arg : FnArg) : FnArg × List Diag :=
  match arg with
  | FnArg.receiver attrs reference mutability =>
    let warns :=
      if needs_env_lifetime ft.struct_type then [missing_env_warning ft.struct_type]
      else []
    let self_type :=
      match reference with
      | some lt => Ty.reference lt mutability (Ty.path ft.struct_type)
      | none => Ty.path ft.struct_type
    (FnArg.typed
      { attrs := attrs,
        pat := Pat.ident false false (receiver_ident ft.struct_name ft.fn_name) false,
        ty := self_type }, warns)
  | FnArg.typed t =>
    match t.pat with
    | Pat.ident byRef mutability n subpat =>
      if n == "self" then
        (FnArg.typed
          { attrs := t.attrs,
            pat := Pat.ident byRef mutability (receiver_ident ft.struct_name ft.fn_name) subpat,
            ty := t.ty }, [])
      else (FnArg.typed t, [])
    | _ => (FnArg.typed t, [])

/-- `JNISignatureTransformer` (mod.rs lines 435 to 441). -/
structure JNISignatureTransformer where
  struct_type : Path
  struct_name : String
  struct_lifetimes : List LifetimeDef
  fn_name : String
  call_type : CallType

/-- The new borrow lifetime parameter pushed by `transform_generics`
(mod.rs lines 481 to 493 and 500 to 521): no bounds. -/
def borrow_lifetime_def : LifetimeDef :=
  { ident := "borrow", bounds := [] }

/-- The new env lifetime parameter pushed by `transform_generics` in
the neither-present branch (mod.rs lines 505 to 514): a single borrow
bound. -/
def env_lifetime_def : LifetimeDef :=
  { ident := "env", bounds := ["borrow"] }

/-- The warning of `transform_generics` for an env lifetime with
bounds other than borrow (mod.rs lines 462 to 465). -/
def env_bound_warning (d : LifetimeDef) : Diag :=
  { severity := Severity.warning,
    site := DiagSite.onLifetimeDef d,
    message := "using JNI-reserved env lifetime with non borrow bounds" }

/-- The error of `transform_generics` for a borrow lifetime without an
accompanying env lifetime (mod.rs lines 495 to 498). -/
def borrow_without_env_error (d : LifetimeDef) : Diag :=
  { severity := Severity.error,
    site := DiagSite.onLifetimeDef d,
    message := "cannot use JNI-reserved borrow lifetime without accompanying env borrow lifetime" }

/-- The left fold of `transform_generics` (mod.rs lines 458 to 476):
scans the generic parameters in order, keeping the index of the last
lifetime parameter named env (it is later mutated in place, so its
position is what matters) and the last lifetime parameter named
borrow (only its declaration is later used, as a diagnostic site). -/
def scan_env_borrow : List GenericParam → Nat →
    Option Nat × Option LifetimeDef → Option Nat × Option LifetimeDef
  | [], _, acc => acc
  | p :: ps, i, acc =>
    let acc' :=
      match p with
      | GenericParam.lifetime d =>
        if d.ident == "env" then (some i, acc.2)
        else if d.ident == "borrow" then (acc.1, some d)
        else acc
      | _ => acc
    scan_env_borrow ps (i + 1) acc'

/-- `e.bounds.push(borrow)` applied to the lifetime parameter at the
given index (mod.rs line 486). -/
def push_borrow_bound : List GenericParam → Nat → List GenericParam
  | [], _ => []
  | p :: ps, 0 =>
    (match p with
     | GenericParam.lifetime d =>
       GenericParam.lifetime { d with bounds := d.bounds ++ ["borrow"] }
     | q => q) :: ps
  | p :: ps, Nat.succ n => p :: push_borrow_bound ps n

/-- The per-parameter warnings emitted during the fold of
`transform_generics` (mod.rs lines 462 to 465): one warning for every
lifetime parameter named env that carries a bound other than
borrow. -/
def env_bound_warnings (params : List GenericParam) : List Diag :=
  params.filterMap fun p =>
    match p with
    | GenericParam.lifetime d =>
      if d.ident == "env" && d.bounds.any (fun b => b != "borrow") then
        some (env_bound_warning d)
      else none
    | _ => none

/-- `JNISignatureTransformer::transform_generics` (mod.rs lines 454 to
526): first extends the generics with the enclosing type's relevant
lifetimes, then applies one of four policies according to which of the
env and borrow lifetimes are present. -/
def JNISignatureTransformer.transform_generics (tr : JNISignatureTransformer)
    (generics : Generics) : Generics × List Diag :=
  let params := generics.params ++ tr.struct_lifetimes.map GenericParam.lifetime
  let warns := env_bound_warnings params
  match scan_env_borrow params 0 (none, none) with
  | (some _, some _) => ({ params := params }, warns)
  | (some i, none) =>
    ({ params := push_borrow_bound params i ++ [GenericParam.lifetime borrow_lifetime_def] },
     warns)
  | (none, some d) =>
    ({ params := params }, warns ++ [borrow_without_env_error d])
  | (none, none) =>
    ({ params := params ++ [GenericParam.lifetime env_lifetime_def,
                            GenericParam.lifetime borrow_lifetime_def] },
     warns)

/-- `JNISignatureTransformer::fold_fn_arg` (mod.rs lines 530 to 556):
first applies the freestanding transformer, then (a receiver surviving
it is a bug and aborts) replaces the argument type with the Source
associated type of the conversion trait selected by call mode, with
the env and borrow lifetime arguments. -/
def JNISignatureTransformer.fold_fn_arg (tr : JNISignatureTransformer)
    (arg : FnArg) : Except String (FnArg × List Diag) :=
  let ft : FreestandingTransformer :=
    { struct_type := tr.struct_type, struct_name := tr.struct_name, fn_name := tr.fn_name }
  match ft.fold_fn_arg arg with
  | (FnArg.receiver _ _ _, _) =>
    Except.error "Bug -- found receiver input after freestanding conversion"
  | (FnArg.typed t, diags) =>
    let jni_conversion_type : Ty :=
      match tr.call_type with
      | CallType.safe _ =>
        Ty.assoc t.ty ConvTrait.tryFromJavaValue ["env", "borrow"] "Source"
      | CallType.unchecked =>
        Ty.assoc t.ty ConvTrait.fromJavaValue ["env", "borrow"] "Source"
    Except.ok (FnArg.typed { attrs := t.attrs, pat := t.pat, ty := jni_conversion_type }, diags)

/-- The error of `fold_return_type` for return types that are neither
paths, references nor the empty tuple (mod.rs lines 586 to 589). -/
def return_type_error : Diag :=
  { severity := Severity.error,
    site := DiagSite.onReturnType,
    message := "only type or type paths are permitted as type ascriptions in function params" }

/-- `JNISignatureTransformer::fold_return_type` (mod.rs lines 558 to
592): no declared return type is kept; a path or reference return
type is replaced by the Target associated type of the to-Java
conversion trait selected by call mode, with the env lifetime
argument; the empty tuple becomes no return type; anything else is an
error and is returned unchanged. -/
def JNISignatureTransformer.fold_return_type (tr : JNISignatureTransformer)
    (return_type : ReturnType) : ReturnType × List Diag :=
  match return_type with
  | ReturnType.default => (return_type, [])
  | ReturnType.type t =>
    match t, tr.call_type with
    | Ty.path p, CallType.unchecked =>
      (ReturnType.type (Ty.assoc (Ty.path p) ConvTrait.intoJavaValue ["env"] "Target"), [])
    | Ty.path p, CallType.safe _ =>
      (ReturnType.type (Ty.assoc (Ty.path p) ConvTrait.tryIntoJavaValue ["env"] "Target"), [])
    | Ty.reference l m e, CallType.unchecked =>
      (ReturnType.type (Ty.assoc (Ty.reference l m e) ConvTrait.intoJavaValue ["env"] "Target"), [])
    | Ty.reference l m e, CallType.safe _ =>
      (ReturnType.type (Ty.assoc (Ty.reference l m e) ConvTrait.tryIntoJavaValue ["env"] "Target"), [])
    | Ty.tuple [], _ => (ReturnType.default, [])
    | _, _ => (return_type, [return_type_error])

/-- `JNISignatureTransformer::fold_signature` (mod.rs lines 594 to
608): folds generics, every input and the return type, collecting the
diagnostics in evaluation order. -/
def JNISignatureTransformer.fold_signature (tr : JNISignatureTransformer)
    (node : Signature) : Except String (Signature × List Diag) := do
  let g := tr.transform_generics node.generics
  let folded ← node.inputs.mapM tr.fold_fn_arg
  let r := tr.fold_return_type node.output
  Except.ok
    ({ node with
        generics := g.1,
        inputs := folded.map Prod.fst,
        output := r.1 },
     g.2 ++ (folded.map Prod.snd).flatten ++ r.2)

/-- `JNISignature` (mod.rs lines 611 to 617). -/
structure JNISignature where
  transformed_signature : Signature
  call_type : CallType
  struct_name : String
  self_method : Bool
  env_arg : Option FnArg

/-- `JNISignature::new` (mod.rs lines 619 to 647): records whether the
original signature is a self-method, strips the explicit environment
argument if present, and folds the remaining signature. -/
def JNISignature.new (signature : Signature) (struct_type : Path)
    (struct_name : String) (struct_lifetimes : List LifetimeDef)
    (call_type : CallType) : Except String (JNISignature × List Diag) := do
  let tr : JNISignatureTransformer :=
    { struct_type := struct_type, struct_name := struct_name,
      struct_lifetimes := struct_lifetimes, fn_name := signature.ident,
      call_type := call_type }
  let self_method := is_self_method signature
  let (sig0, env_arg) := get_env_arg signature
  let folded ← tr.fold_signature sig0
  Except.ok
    ({ transformed_signature := folded.1, call_type := call_type,
       struct_name := struct_name, self_method := self_method,
       env_arg := env_arg }, folded.2)

/-- `JNISignature::args_iter` (mod.rs lines 649 to 655): the typed
arguments of the transformed signature; a receiver is a bug and
aborts. -/
def JNISignature.args_iter (s : JNISignature) : Except String (List PatType) :=
  s.transformed_signature.inputs.mapM fun a =>
    match a with
    | FnArg.receiver _ _ _ =>
      Except.error "Bug -- found receiver type in freestanding signature"
    | FnArg.typed p => Except.ok p

/-- The per-argument conversion expression of
`JNISignature::signature_call` (mod.rs lines 659 to 675): an
identifier binding becomes the conversion selected by call mode
applied to it and the environment handle (with error propagation in
safe mode); any other pattern is a bug and aborts. -/
def signature_call_input (ct : CallType) (p : PatType) : Except String Expr :=
  match p.pat with
  | Pat.ident _ _ x _ =>
    Except.ok
      (match ct with
       | CallType.safe _ => Expr.tryFromJavaValue x
       | CallType.unchecked => Expr.fromJavaValue x)
  | _ => Except.error "Bug -- found non-ident FnArg pattern"

/-- `JNISignature::signature_call` (mod.rs lines 657 to 693): builds
the conversion expressions for all arguments; if an explicit
environment argument was detected, inserts the literal argument
`&env` at index 1 for self-methods and index 0 otherwise (`Vec::insert`
aborts when the index exceeds the length); wraps the result in a
qualified call of the method on the struct. -/
def JNISignature.signature_call (s : JNISignature) : Except String Expr := do
  let args ← s.args_iter
  let result ← args.mapM (signature_call_input s.call_type)
  let result ←
    if s.env_arg.isSome then
      let idx := if s.self_method then 1 else 0
      if idx ≤ result.length then
        Except.ok (result.insertIdx idx Expr.refEnv)
      else
        Except.error "panic: insertion index out of bounds"
    else
      Except.ok result
  Except.ok (Expr.call s.struct_name s.transformed_signature.ident result)

/-- Modelled from the spec: `transformation/exported.rs` is not under
`src/`.  Its transformer drives `JNISignature::new` for each exported
method; per the spec (section 4.3, step 1: merge the enclosing type's
relevant lifetime parameters into the method's generics, self-methods
only), the enclosing type's lifetimes are passed only when the method
is a self-method. -/
def exported_method_signature (signature : Signature) (struct_type : Path)
    (struct_name : String) (struct_lifetimes : List LifetimeDef)
    (call_type : CallType) : Except String (JNISignature × List Diag) :=
  JNISignature.new signature struct_type struct_name
    (if is_self_method signature then struct_lifetimes else []) call_type

/-- `ExportedMethodTransformer` (mod.rs lines 92 to 97, declared in
exported.rs). -/
structure ExportedMethodTransformer where
  struct_type : Path
  struct_name : String
  struct_lifetimes : List LifetimeDef
  package : Option String

/-- Modelled from the spec: the freestanding shim generated for an
exported method by `transformation/exported.rs` (not under `src/`).
Only its provenance is modelled: the transformer configuration and
the method it was applied to. -/
inductive TransformedItem where
  | shim (tr : ExportedMethodTransformer) (item : ImplItem)

/-- Modelled from the spec: `ExportedMethodTransformer::fold_impl_item`
(exported.rs, not under `src/`) rewrites an exported method into its
freestanding shim. -/
def ExportedMethodTransformer.fold_impl_item (tr : ExportedMethodTransformer)
    (item : ImplItem) : TransformedItem :=
  TransformedItem.shim tr item

/-- `ImportedMethodTransformer` (mod.rs lines 98 to 101, declared in
imported.rs). -/
structure ImportedMethodTransformer where
  struct_name : String
  package : Option String

/-- Modelled from the spec: `ImportedMethodTransformer::fold_impl_item`
(imported.rs, not under `src/`).  Imported methods are out of the core
scope (spec sections 1 and 4.6 delegate them to an external
collaborator) and no claim inspects their rewriting, so the model
keeps the item unchanged. -/
def ImportedMethodTransformer.fold_impl_item (tr : ImportedMethodTransformer)
    (item : ImplItem) : ImplItem :=
  item

/-- An impl block (`syn::ItemImpl`), restricted to the fields the
transformation reads. -/
structure ItemImpl where
  attrs : List AttrPath
  generics : Generics
  self_ty : Ty
  items : List ImplItem

/-- The lifetime argument names appearing in the angle-bracketed
arguments of a path's segments (`path_lifetimes`, mod.rs lines 68 to
79). -/
def path_lifetimes (p : Path) : List String :=
  (p.segments.map fun s =>
    match s.args with
    | some args =>
      args.filterMap fun g =>
        match g with
        | GenericArgument.lifetime l => some l
        | _ => none
    | none => []).flatten

/-- The output of `ModTransformer::transform_item_impl`: the preserved
(cleaned) impl block followed by the generated freestanding items. -/
structure ImplOutput where
  preserved : ItemImpl
  generated : List TransformedItem

/-- `ModTransformer::transform_item_impl` (mod.rs lines 51 to 156).
For a plain type-path self type: look up the struct's package (a
missing entry is an error, and the block is re-emitted unmodified);
otherwise classify every item, clean exported and imported preserved
items (imported ones additionally go through the imported-method
transformer) and generate a freestanding shim for every exported item,
keeping declaration order.  For any other self type, the block is
re-emitted with its items untouched and nothing is generated.  The
surrounding `ModTransformer` fold hooks are identity on the fields it
re-folds (attributes, generics, self type, impl items of the preserved
block). -/
def ModTransformer.transform_item_impl (package_map : List (String × Option String))
    (node : ItemImpl) : ImplOutput × List Diag :=
  match node.self_ty with
  | Ty.path p =>
    let struct_name := path_to_string (canonicalize_path p)
    let struct_package := (package_map.lookup struct_name).join
    match struct_package with
    | none =>
      ({ preserved := node, generated := [] },
       [{ severity := Severity.error, site := DiagSite.onPath p,
          message := "cannot find package for struct" }])
    | some pkg =>
      let lts := path_lifetimes p
      let struct_lifetimes := node.generics.params.filterMap fun q =>
        match q with
        | GenericParam.lifetime l => if lts.contains l.ident then some l else none
        | _ => none
      let tagged := node.items.map fun i => (i, ImplExportVisitor.classify i)
      let preserved_items := tagged.map fun it =>
        match it.2 with
        | ImplItemType.Exported => ImplCleaner.fold_impl_item it.1
        | ImplItemType.Imported =>
          ImportedMethodTransformer.fold_impl_item
            { struct_name := struct_name, package := some pkg }
            (ImplCleaner.fold_impl_item it.1)
        | ImplItemType.Unexported => it.1
      let exported_tr : ExportedMethodTransformer :=
        { struct_type := p, struct_name := struct_name,
          struct_lifetimes := struct_lifetimes, package := some pkg }
      let generated :=
        (tagged.filterMap fun it =>
          match it.2 with
          | ImplItemType.Exported => some it.1
          | _ => none).map exported_tr.fold_impl_item
      ({ preserved := { node with items := preserved_items }, generated := generated }, [])
  | _ => ({ preserved := node, generated := [] }, [])

/-- A generic parameter that is not a lifetime named env and not a
lifetime named borrow. -/
def not_env_borrow_param (p : GenericParam) : Bool :=
  match p with
  | GenericParam.lifetime d => d.ident != "env" && d.ident != "borrow"
  | _ => true

/-- A generic parameter that is not a lifetime named env. -/
def not_env_param (p : GenericParam) : Bool :=
  match p with
  | GenericParam.lifetime d => d.ident != "env"
  | _ => true

/-- A generic parameter that is a lifetime named borrow. -/
def is_borrow_param (p : GenericParam) : Bool :=
  match p with
  | GenericParam.lifetime d => d.ident == "borrow"
  | _ => false

/-- A function argument that is typed with an identifier pattern (the
shape call-expression synthesis requires). -/
def typed_ident_arg (a : FnArg) : Bool :=
  match a with
  | FnArg.typed t =>
    match t.pat with
    | Pat.ident _ _ _ _ => true
    | _ => false
  | _ => false

/-- A path segment that carries a lifetime argument named env among
its angle-bracketed arguments. -/
def segment_has_env (s : PathSegment) : Bool :=
  match s.args with
  | some args => args.any fun g => g == GenericArgument.lifetime "env"
  | none => false

/-- A path segment that, if it carries angle-bracketed arguments at
all, includes a lifetime argument named env among them. -/
def segment_env_ok (s : PathSegment) : Bool :=
  match s.args with
  | some args => args.any fun g => g == GenericArgument.lifetime "env"
  | none => true

/-- A path segment none of whose angle-bracketed arguments is a
lifetime named env. -/
def segment_no_env (s : PathSegment) : Bool :=
  match s.args with
  | some args => args.all fun g => g != GenericArgument.lifetime "env"
  | none => true

/-- The freestanding transformer never returns a receiver: every
argument it folds comes back as a typed argument. -/
theorem freestanding_fold_fn_arg_typed (ft : FreestandingTransformer) (arg : FnArg) :
    ∃ t : PatType, ∃ diags : List Diag, ft.fold_fn_arg arg = (FnArg.typed t, diags) := by
  cases arg with
  | receiver attrs reference mutability => exact ⟨_, _, rfl⟩
  | typed t =>
    obtain ⟨attrs, pat, ty⟩ := t
    cases pat with
    | ident byRef mutability n subpat =>
      by_cases h : n = "self" <;>
        simp [FreestandingTransformer.fold_fn_arg, h]
    | wild => exact ⟨_, _, rfl⟩
    | other => exact ⟨_, _, rfl⟩

/-- C6: a declared return type that is the empty tuple is rewritten to
no return type under every call mode, and a method with no declared
return type keeps no return type (and neither case emits a
diagnostic). -/
theorem C6_unit_return_type_dropped (tr : JNISignatureTransformer) :
    tr.fold_return_type (ReturnType.type (Ty.tuple [])) = (ReturnType.default, []) ∧
    tr.fold_return_type ReturnType.default = (ReturnType.default, []) := by
  obtain ⟨st, sn, sl, fn, ct⟩ := tr
  cases ct <;> exact ⟨rfl, rfl⟩

/-- C6 witness: concrete evaluation under safe mode. -/
theorem C6_unit_return_type_dropped_witness :
    ({ struct_type := ⟨[⟨"Foo", none⟩]⟩, struct_name := "Foo", struct_lifetimes := [],
       fn_name := "bar", call_type := CallType.safe none } :
      JNISignatureTransformer).fold_return_type (ReturnType.type (Ty.tuple [])) =
      (ReturnType.default, []) :=
  (C6_unit_return_type_dropped _).1

/-- C10: an impl block whose self type is not a plain type path is
re-emitted with all its items preserved, generates no freestanding
items and emits no diagnostics, for every package map (so no package
lookup influences the result). -/
theorem C10_non_path_impl_passthrough (package_map : List (String × Option String))
    (node : ItemImpl) (h : ∀ p : Path, node.self_ty ≠ Ty.path p) :
    ModTransformer.transform_item_impl package_map node =
      ({ preserved := node, generated := [] }, []) := by
  obtain ⟨attrs, generics, self_ty, items⟩ := node
  cases self_ty with
  | path p => exact absurd rfl (h p)
  | reference l m e => rfl
  | tuple es => rfl
  | assoc b tr lts i => rfl
  | other => rfl

/-- C10 witness: an impl block for a reference type passes through
unchanged even with a populated package map. -/
theorem C10_non_path_impl_passthrough_witness :
    ModTransformer.transform_item_impl [("Foo", some "com.example")]
      { attrs := [], generics := ⟨[]⟩,
        self_ty := Ty.reference none false (Ty.path ⟨[⟨"Foo", none⟩]⟩),
        items := [ImplItem.other] } =
      ({ preserved :=
           { attrs := [], generics := ⟨[]⟩,
             self_ty := Ty.reference none false (Ty.path ⟨[⟨"Foo", none⟩]⟩),
             items := [ImplItem.other] },
         generated := [] }, []) :=
  C10_non_path_impl_passthrough _ _ (fun _ h => nomatch h)

/-- C1: for every parameter, the conversion is selected by call mode
consistently in the rewritten signature and in the synthesized call
expression: in safe mode the parameter type becomes the Source
associated type of TryFromJavaValue with the env and borrow lifetimes
and the call argument is the error-propagating try-from conversion; in
unchecked mode the parameter type becomes the Source associated type
of FromJavaValue and the call argument is the infallible from
conversion. -/
theorem C1_conversion_selected_by_call_mode :
    (∀ (tr : JNISignatureTransformer) (arg : FnArg),
      ∃ t : PatType, ∃ diags : List Diag, ∃ base : Ty,
        tr.fold_fn_arg arg = Except.ok (FnArg.typed t, diags) ∧
        t.ty = Ty.assoc base
          (match tr.call_type with
           | CallType.safe _ => ConvTrait.tryFromJavaValue
           | CallType.unchecked => ConvTrait.fromJavaValue)
          ["env", "borrow"] "Source") ∧
    (∀ (ct : CallType) (p : PatType) (byRef mutability : Bool) (x : String) (sp : Bool),
      p.pat = Pat.ident byRef mutability x sp →
      signature_call_input ct p = Except.ok
        (match ct with
         | CallType.safe _ => Expr.tryFromJavaValue x
         | CallType.unchecked => Expr.fromJavaValue x)) := by
  constructor
  · intro tr arg
    obtain ⟨t, diags, hfd⟩ := freestanding_fold_fn_arg_typed
      ⟨tr.struct_type, tr.struct_name, tr.fn_name⟩ arg
    refine ⟨{ attrs := t.attrs, pat := t.pat,
              ty := Ty.assoc t.ty
                (match tr.call_type with
                 | CallType.safe _ => ConvTrait.tryFromJavaValue
                 | CallType.unchecked => ConvTrait.fromJavaValue)
                ["env", "borrow"] "Source" }, diags, t.ty, ?_, rfl⟩
    simp only [JNISignatureTransformer.fold_fn_arg]
    rw [hfd]
    cases tr.call_type <;> rfl
  · intro ct p byRef mutability x sp hp
    unfold signature_call_input
    rw [hp]

/-- A parameter that is neither an env nor a borrow lifetime leaves
the scan accumulator untouched. -/
theorem scan_env_borrow_eq_of_forall (ps : List GenericParam) :
    ∀ (i : Nat) (acc : Option Nat × Option LifetimeDef),
      (∀ p ∈ ps, not_env_borrow_param p = true) →
      scan_env_borrow ps i acc = acc := by
  induction ps with
  | nil => intro i acc h; rfl
  | cons p ps ih =>
    intro i acc h
    have hp := h p (List.mem_cons_self p ps)
    have hrest : ∀ q ∈ ps, not_env_borrow_param q = true :=
      fun q hq => h q (List.mem_cons_of_mem p hq)
    cases p with
    | lifetime d =>
      simp only [not_env_borrow_param, Bool.and_eq_true, bne_iff_ne, ne_eq] at hp
      simp only [scan_env_borrow]
      rw [if_neg (by simpa using hp.1), if_neg (by simpa using hp.2)]
      exact ih (i + 1) acc hrest
    | type n => exact ih (i + 1) acc hrest
    | const n => exact ih (i + 1) acc hrest

/-- A scan over parameters none of which is an env lifetime keeps the
first accumulator component. -/
theorem scan_env_borrow_fst (ps : List GenericParam) :
    ∀ (i : Nat) (acc : Option Nat × Option LifetimeDef),
      (∀ p ∈ ps, not_env_param p = true) →
      (scan_env_borrow ps i acc).1 = acc.1 := by
  induction ps with
  | nil => intro i acc h; rfl
  | cons p ps ih =>
    intro i acc h
    have hp := h p (List.mem_cons_self p ps)
    have hrest : ∀ q ∈ ps, not_env_param q = true :=
      fun q hq => h q (List.mem_cons_of_mem p hq)
    cases p with
    | lifetime d =>
      simp only [not_env_param, bne_iff_ne, ne_eq] at hp
      simp only [scan_env_borrow]
      rw [if_neg (by simpa using hp)]
      by_cases hb : d.ident = "borrow"
      · rw [if_pos (by simpa using hb)]
        exact ih (i + 1) (acc.1, some d) hrest
      · rw [if_neg (by simpa using hb)]
        exact ih (i + 1) acc hrest
    | type n => exact ih (i + 1) acc hrest
    | const n => exact ih (i + 1) acc hrest

/-- The second scan component is either the initial one or the last
borrow-named lifetime declaration of the list. -/
theorem scan_env_borrow_snd_inv (ps : List GenericParam) :
    ∀ (i : Nat) (acc : Option Nat × Option LifetimeDef),
      (scan_env_borrow ps i acc).2 = acc.2 ∨
      ∃ d : LifetimeDef, (scan_env_borrow ps i acc).2 = some d ∧
        d.ident = "borrow" ∧ GenericParam.lifetime d ∈ ps := by
  induction ps with
  | nil => intro i acc; exact Or.inl rfl
  | cons p ps ih =>
    intro i acc
    cases p with
    | lifetime d =>
      simp only [scan_env_borrow]
      by_cases he : d.ident = "env"
      · rw [if_pos (by simpa using he)]
        rcases ih (i + 1) (some i, acc.2) with h | ⟨d', h1, h2, h3⟩
        · exact Or.inl h
        · exact Or.inr ⟨d', h1, h2, List.mem_cons_of_mem _ h3⟩
      · rw [if_neg (by simpa using he)]
        by_cases hb : d.ident = "borrow"
        · rw [if_pos (by simpa using hb)]
          rcases ih (i + 1) (acc.1, some d) with h | ⟨d', h1, h2, h3⟩
          · exact Or.inr ⟨d, h, hb, List.mem_cons_self _ _⟩
          · exact Or.inr ⟨d', h1, h2, List.mem_cons_of_mem _ h3⟩
        · rw [if_neg (by simpa using hb)]
          rcases ih (i + 1) acc with h | ⟨d', h1, h2, h3⟩
          · exact Or.inl h
          · exact Or.inr ⟨d', h1, h2, List.mem_cons_of_mem _ h3⟩
    | type n =>
      rcases ih (i + 1) acc with h | ⟨d', h1, h2, h3⟩
      · exact Or.inl h
      · exact Or.inr ⟨d', h1, h2, List.mem_cons_of_mem _ h3⟩
    | const n =>
      rcases ih (i + 1) acc with h | ⟨d', h1, h2, h3⟩
      · exact Or.inl h
      · exact Or.inr ⟨d', h1, h2, List.mem_cons_of_mem _ h3⟩

/-- Once the second scan component is set it stays set. -/
theorem scan_env_borrow_snd_isSome_mono (ps : List GenericParam) :
    ∀ (i : Nat) (acc : Option Nat × Option LifetimeDef),
      acc.2.isSome = true → ((scan_env_borrow ps i acc).2).isSome = true := by
  induction ps with
  | nil => intro i acc h; exact h
  | cons p ps ih =>
    intro i acc h
    cases p with
    | lifetime d =>
      simp only [scan_env_borrow]
      by_cases he : d.ident = "env"
      · rw [if_pos (by simpa using he)]; exact ih (i + 1) (some i, acc.2) h
      · rw [if_neg (by simpa using he)]
        by_cases hb : d.ident = "borrow"
        · rw [if_pos (by simpa using hb)]; exact ih (i + 1) (acc.1, some d) (by rfl)
        · rw [if_neg (by simpa using hb)]; exact ih (i + 1) acc h
    | type n => exact ih (i + 1) acc h
    | const n => exact ih (i + 1) acc h

/-- If the list contains a borrow-named lifetime the scan finds
one. -/
theorem scan_env_borrow_snd_isSome (ps : List GenericParam) :
    ∀ (i : Nat) (acc : Option Nat × Option LifetimeDef),
      (∃ p ∈ ps, is_borrow_param p = true) →
      ((scan_env_borrow ps i acc).2).isSome = true := by
  induction ps with
  | nil => intro i acc h; exact absurd h (by simp)
  | cons p ps ih =>
    intro i acc ⟨q, hq, hqb⟩
    rcases List.mem_cons.mp hq with rfl | hq'
    · cases q with
      | lifetime d =>
        simp only [is_borrow_param] at hqb
        have hb : d.ident = "borrow" := by simpa using hqb
        have he : d.ident ≠ "env" := by rw [hb]; decide
        simp only [scan_env_borrow]
        rw [if_neg (by simpa using he), if_pos (by simpa using hb)]
        exact scan_env_borrow_snd_isSome_mono ps (i + 1) (acc.1, some d) (by rfl)
      | type n => exact absurd hqb (by simp [is_borrow_param])
      | const n => exact absurd hqb (by simp [is_borrow_param])
    · cases p with
      | lifetime d =>
        simp only [scan_env_borrow]
        by_cases he : d.ident = "env"
        · rw [if_pos (by simpa using he)]; exact ih (i + 1) _ ⟨q, hq', hqb⟩
        · rw [if_neg (by simpa using he)]
          by_cases hb : d.ident = "borrow"
          · rw [if_pos (by simpa using hb)]
            exact scan_env_borrow_snd_isSome_mono ps (i + 1) (acc.1, some d) (by rfl)
          · rw [if_neg (by simpa using hb)]; exact ih (i + 1) acc ⟨q, hq', hqb⟩
      | type n => exact ih (i + 1) acc ⟨q, hq', hqb⟩
      | const n => exact ih (i + 1) acc ⟨q, hq', hqb⟩

/-- No env-named lifetime, no bound warnings. -/
theorem env_bound_warnings_eq_nil (ps : List GenericParam)
    (h : ∀ p ∈ ps, not_env_param p = true) :
    env_bound_warnings ps = [] := by
  unfold env_bound_warnings
  rw [List.filterMap_eq_nil_iff]
  intro p hp
  have := h p hp
  cases p with
  | lifetime d =>
    simp only [not_env_param, bne_iff_ne, ne_eq] at this
    simp [this]
  | type n => rfl
  | const n => rfl

/-- Every parameter of a merged list without env or borrow lifetimes
is in particular not an env lifetime. -/
theorem not_env_of_not_env_borrow (p : GenericParam)
    (h : not_env_borrow_param p = true) : not_env_param p = true := by
  cases p with
  | lifetime d =>
    simp only [not_env_borrow_param, Bool.and_eq_true] at h
    simpa [not_env_param] using h.1
  | type n => rfl
  | const n => rfl

/-- C2: when the merged generics (the method's parameters followed by
the enclosing type's relevant lifetimes) contain no lifetime named env
and none named borrow, transform_generics keeps every pre-existing
parameter unchanged, appends exactly the two new lifetime parameters
env (with the single bound borrow) and borrow (with no bounds), and
emits no diagnostics. -/
theorem C2_lifetime_synthesis_neither_present (tr : JNISignatureTransformer)
    (generics : Generics)
    (h : ∀ p ∈ generics.params ++ tr.struct_lifetimes.map GenericParam.lifetime,
      not_env_borrow_param p = true) :
    tr.transform_generics generics =
      ({ params := generics.params ++ tr.struct_lifetimes.map GenericParam.lifetime ++
          [GenericParam.lifetime env_lifetime_def,
           GenericParam.lifetime borrow_lifetime_def] }, []) := by
  have h1 : scan_env_borrow
      (generics.params ++ tr.struct_lifetimes.map GenericParam.lifetime) 0 (none, none) =
      (none, none) :=
    scan_env_borrow_eq_of_forall _ 0 (none, none) h
  have h2 : env_bound_warnings
      (generics.params ++ tr.struct_lifetimes.map GenericParam.lifetime) = [] :=
    env_bound_warnings_eq_nil _ (fun p hp => not_env_of_not_env_borrow p (h p hp))
  simp only [JNISignatureTransformer.transform_generics, h1, h2]

/-- C2 witness: a method with one type parameter and one unrelated
lifetime, merged with one unrelated struct lifetime. -/
theorem C2_lifetime_synthesis_neither_present_witness :
    ({ struct_type := ⟨[⟨"Foo", none⟩]⟩, struct_name := "Foo",
       struct_lifetimes := [⟨"a", []⟩], fn_name := "bar",
       call_type := CallType.unchecked } :
      JNISignatureTransformer).transform_generics
      ⟨[GenericParam.type "T", GenericParam.lifetime ⟨"b", []⟩]⟩ =
      ({ params := [GenericParam.type "T", GenericParam.lifetime ⟨"b", []⟩,
          GenericParam.lifetime ⟨"a", []⟩,
          GenericParam.lifetime env_lifetime_def,
          GenericParam.lifetime borrow_lifetime_def] }, []) :=
  C2_lifetime_synthesis_neither_present _ _ (by decide)

/-- C3: when the merged generics contain a borrow-named lifetime but
no env-named lifetime, transform_generics emits a single fatal error
diagnostic sited at a borrow-named lifetime declaration of the merged
list and leaves the parameter list exactly as merged, adding no new
lifetime parameters. -/
theorem C3_borrow_without_env_rejected (tr : JNISignatureTransformer)
    (generics : Generics)
    (henv : ∀ p ∈ generics.params ++ tr.struct_lifetimes.map GenericParam.lifetime,
      not_env_param p = true)
    (hbor : ∃ p ∈ generics.params ++ tr.struct_lifetimes.map GenericParam.lifetime,
      is_borrow_param p = true) :
    ∃ d : LifetimeDef, d.ident = "borrow" ∧
      GenericParam.lifetime d ∈
        generics.params ++ tr.struct_lifetimes.map GenericParam.lifetime ∧
      tr.transform_generics generics =
        ({ params := generics.params ++ tr.struct_lifetimes.map GenericParam.lifetime },
         [borrow_without_env_error d]) := by
  have hfst := scan_env_borrow_fst
    (generics.params ++ tr.struct_lifetimes.map GenericParam.lifetime) 0 (none, none) henv
  have hsome := scan_env_borrow_snd_isSome
    (generics.params ++ tr.struct_lifetimes.map GenericParam.lifetime) 0 (none, none) hbor
  rcases scan_env_borrow_snd_inv
    (generics.params ++ tr.struct_lifetimes.map GenericParam.lifetime) 0 (none, none) with
    hnone | ⟨d, hd, hdb, hdm⟩
  · rw [hnone] at hsome; exact absurd hsome (by simp)
  · refine ⟨d, hdb, hdm, ?_⟩
    have hscan : scan_env_borrow
        (generics.params ++ tr.struct_lifetimes.map GenericParam.lifetime) 0 (none, none) =
        (none, some d) := by
      rcases hres : scan_env_borrow
        (generics.params ++ tr.struct_lifetimes.map GenericParam.lifetime) 0 (none, none)
        with ⟨a, b⟩
      rw [hres] at hfst hd
      simp only at hfst hd
      rw [hfst, hd]
    have hwarns : env_bound_warnings
        (generics.params ++ tr.struct_lifetimes.map GenericParam.lifetime) = [] :=
      env_bound_warnings_eq_nil _ henv
    simp only [JNISignatureTransformer.transform_generics, hscan, hwarns, List.nil_append]

/-- C3 witness: a method declaring only the borrow lifetime. -/
theorem C3_borrow_without_env_rejected_witness :
    ∃ d : LifetimeDef, d.ident = "borrow" ∧
      GenericParam.lifetime d ∈
        ([GenericParam.lifetime ⟨"borrow", []⟩] ++
          ([] : List LifetimeDef).map GenericParam.lifetime) ∧
      ({ struct_type := ⟨[⟨"Foo", none⟩]⟩, struct_name := "Foo",
         struct_lifetimes := [], fn_name := "bar",
         call_type := CallType.safe none } :
        JNISignatureTransformer).transform_generics
        ⟨[GenericParam.lifetime ⟨"borrow", []⟩]⟩ =
        ({ params := [GenericParam.lifetime ⟨"borrow", []⟩] ++
            ([] : List LifetimeDef).map GenericParam.lifetime },
         [borrow_without_env_error d]) :=
  C3_borrow_without_env_rejected
    { struct_type := ⟨[⟨"Foo", none⟩]⟩, struct_name := "Foo",
      struct_lifetimes := [], fn_name := "bar",
      call_type := CallType.safe none }
    ⟨[GenericParam.lifetime ⟨"borrow", []⟩]⟩ (by decide) (by decide)

/-- If every segment that has angle-bracketed arguments includes an
env lifetime among them, the env-lifetime check passes (the warning
condition is false). -/
theorem needs_env_lifetime_eq_false (p : Path)
    (hok : ∀ s ∈ p.segments, segment_env_ok s = true) :
    needs_env_lifetime p = false := by
  unfold needs_env_lifetime
  rw [List.any_eq_false]
  intro s hs
  have := hok s hs
  cases hargs : s.args with
  | none => simp
  | some args =>
    simp only [segment_env_ok, hargs] at this
    rw [List.any_eq_true] at this
    obtain ⟨g, hg, hge⟩ := this
    have hge' : g = GenericArgument.lifetime "env" := by simpa using hge
    simp only [hargs, Bool.not_eq_true]
    rw [List.all_eq_false]
    refine ⟨"env", ?_, by simp⟩
    rw [List.mem_filterMap]
    exact ⟨g, hg, by rw [hge']⟩

/-- If no segment carries an env lifetime argument but some segment
does carry angle-bracketed arguments, the env-lifetime check fails
(the warning condition is true). -/
theorem needs_env_lifetime_eq_true (p : Path)
    (hnoenv : ∀ s ∈ p.segments, segment_no_env s = true)
    (hbracket : ∃ s ∈ p.segments, s.args.isSome = true) :
    needs_env_lifetime p = true := by
  unfold needs_env_lifetime
  rw [List.any_eq_true]
  obtain ⟨s, hs, hsome⟩ := hbracket
  refine ⟨s, hs, ?_⟩
  have hno := hnoenv s hs
  cases hargs : s.args with
  | none => rw [hargs] at hsome; exact absurd hsome (by simp)
  | some args =>
    simp only [segment_no_env, hargs] at hno
    simp only [hargs]
    rw [List.all_eq_true]
    intro l hl
    rw [List.mem_filterMap] at hl
    obtain ⟨g, hg, hgl⟩ := hl
    have : g ≠ GenericArgument.lifetime "env" := by
      have := (List.all_eq_true.mp hno) g hg
      simpa using this
    cases g with
    | lifetime l' =>
      have hl' : l' = l := by simpa using hgl
      subst hl'
      simp only [bne_iff_ne, ne_eq]
      intro hc
      exact this (by rw [hc])
    | other => exact absurd hgl (by simp)

/-- C5 counterexample: the claim asserts that desugaring a self-method
of a type whose path carries an env lifetime argument emits no
diagnostics; on a path with a second angle-bracketed segment whose
lifetime arguments lack env (here the first segment carries only the
lifetime a while the final segment carries env), the code emits the
missing-env warning. -/
theorem C5_receiver_desugar_counterexample :
    ¬ ((({ struct_type :=
             ⟨[⟨"Outer", some [GenericArgument.lifetime "a"]⟩,
               ⟨"Foo", some [GenericArgument.lifetime "env"]⟩]⟩,
           struct_name := "Foo", fn_name := "bar" } :
          FreestandingTransformer).fold_fn_arg
        (FnArg.receiver [] (some (some "env")) false)).2 = []) := by
  decide

/-- C5 (amended): for every self-method of an enclosing type whose
path carries a lifetime argument named env and all of whose
angle-bracketed segments include such an argument, receiver desugaring
emits no diagnostics and replaces the implicit receiver with a first
parameter typed by the enclosing self type (a reference preserving the
receiver's reference token, lifetime and mutability when the receiver
was a reference, the plain self-type path otherwise), bound to the
identifier synthesized from the struct name and the method name. -/
theorem C5_receiver_desugar_amended (ft : FreestandingTransformer)
    (attrs : List AttrPath) (reference : Option (Option String)) (mutability : Bool)
    (henv : ∃ s ∈ ft.struct_type.segments, segment_has_env s = true)
    (hok : ∀ s ∈ ft.struct_type.segments, segment_env_ok s = true) :
    ft.fold_fn_arg (FnArg.receiver attrs reference mutability) =
      (FnArg.typed
        { attrs := attrs,
          pat := Pat.ident false false (receiver_ident ft.struct_name ft.fn_name) false,
          ty := match reference with
                | some lt => Ty.reference lt mutability (Ty.path ft.struct_type)
                | none => Ty.path ft.struct_type }, []) := by
  have h := needs_env_lifetime_eq_false ft.struct_type hok
  simp only [FreestandingTransformer.fold_fn_arg, h]
  simp

/-- C5 witness: a reference receiver with lifetime and mutability on a
single-segment path carrying env. -/
theorem C5_receiver_desugar_amended_witness :
    ({ struct_type := ⟨[⟨"Foo", some [GenericArgument.lifetime "env"]⟩]⟩,
       struct_name := "Foo", fn_name := "bar" } :
      FreestandingTransformer).fold_fn_arg
      (FnArg.receiver [] (some (some "env")) true) =
      (FnArg.typed
        { attrs := [],
          pat := Pat.ident false false (receiver_ident "Foo" "bar") false,
          ty := Ty.reference (some "env") true
            (Ty.path ⟨[⟨"Foo", some [GenericArgument.lifetime "env"]⟩]⟩) }, []) :=
  C5_receiver_desugar_amended _ _ _ _ (by decide) (by decide)

/-- C9 counterexample: the claim asserts that desugaring a receiver of
an enclosing type whose path carries no env lifetime argument emits a
diagnostic; on a plain path with no angle-bracketed arguments at all
(which carries no env lifetime) the code emits none. -/
theorem C9_missing_env_counterexample :
    ¬ ∃ d : Diag,
      d ∈ (({ struct_type := ⟨[⟨"Foo", none⟩]⟩, struct_name := "Foo", fn_name := "bar" } :
            FreestandingTransformer).fold_fn_arg
          (FnArg.receiver [] none false)).2 := by
  intro ⟨d, hd⟩
  exact List.not_mem_nil d hd

/-- C9 (amended): for every method with an implicit receiver whose
enclosing type's path has at least one angle-bracketed segment and
carries no lifetime argument named env, receiver desugaring emits
exactly the missing-env warning sited at the enclosing type; and the
check is evaluated only for receiver arguments: folding any typed
argument emits no diagnostics. -/
theorem C9_missing_env_amended (ft : FreestandingTransformer)
    (attrs : List AttrPath) (reference : Option (Option String)) (mutability : Bool)
    (hnoenv : ∀ s ∈ ft.struct_type.segments, segment_no_env s = true)
    (hbracket : ∃ s ∈ ft.struct_type.segments, s.args.isSome = true) :
    (ft.fold_fn_arg (FnArg.receiver attrs reference mutability)).2 =
      [missing_env_warning ft.struct_type] ∧
    ∀ t : PatType, (ft.fold_fn_arg (FnArg.typed t)).2 = [] := by
  constructor
  · have h := needs_env_lifetime_eq_true ft.struct_type hnoenv hbracket
    simp only [FreestandingTransformer.fold_fn_arg, h]
    simp
  · intro t
    obtain ⟨tattrs, pat, ty⟩ := t
    cases pat with
    | ident byRef m n subpat =>
      by_cases h : n = "self" <;> simp [FreestandingTransformer.fold_fn_arg, h]
    | wild => rfl
    | other => rfl

/-- C9 witness: a lifetime-parametrized path without env. -/
theorem C9_missing_env_amended_witness :
    (({ struct_type := ⟨[⟨"Foo", some [GenericArgument.lifetime "a"]⟩]⟩,
        struct_name := "Foo", fn_name := "bar" } :
       FreestandingTransformer).fold_fn_arg
      (FnArg.receiver [] none false)).2 =
      [missing_env_warning ⟨[⟨"Foo", some [GenericArgument.lifetime "a"]⟩]⟩] :=
  (C9_missing_env_amended _ _ _ _ (by decide) (by decide)).1

/-- C8 counterexample: the claim asserts classification is unchanged
by cleaning for every method; for a public method with extern marker
jni the cleaner removes the marker, so the original classifies as
Exported while the cleaned method classifies as Unexported. -/
theorem C8_classification_counterexample :
    ImplExportVisitor.classify
        (ImplCleaner.fold_impl_item
          (ImplItem.method
            { attrs := [["call_type"]], vis := Visibility.pub,
              sig := { abi := some (some "jni"), ident := "bar", generics := ⟨[]⟩,
                       inputs := [], output := ReturnType.default } })) ≠
      ImplExportVisitor.classify
        (ImplItem.method
          { attrs := [["call_type"]], vis := Visibility.pub,
            sig := { abi := some (some "jni"), ident := "bar", generics := ⟨[]⟩,
                     inputs := [], output := ReturnType.default } }) := by
  intro h
  exact absurd h (by decide)

/-- C8 (amended): classification commutes with cleaning exactly for
the methods the cleaner leaves untouched: for every method that is not
both public and marked extern jni, classifying the cleaned method
yields the same tag as the original; for a public extern-jni method
the original classifies Exported while the cleaned method, whose
marker was removed, classifies Unexported. -/
theorem C8_classification_after_cleaning_amended :
    (∀ m : ImplItemMethod,
      ¬ (m.vis = Visibility.pub ∧ get_abi m.sig = some "jni") →
      ImplExportVisitor.classify (ImplItem.method (ImplCleaner.fold_impl_item_method m)) =
        ImplExportVisitor.classify (ImplItem.method m)) ∧
    (∀ m : ImplItemMethod, m.vis = Visibility.pub → get_abi m.sig = some "jni" →
      ImplExportVisitor.classify (ImplItem.method m) = ImplItemType.Exported ∧
      ImplExportVisitor.classify (ImplItem.method (ImplCleaner.fold_impl_item_method m)) =
        ImplItemType.Unexported) := by
  constructor
  · intro m h
    simp only [ImplCleaner.fold_impl_item_method]
    split
    · next hv hab => exact absurd ⟨hv, hab⟩ h
    · rfl
  · intro m hv hab
    have hsig : m.sig.abi = some (some "jni") := by
      unfold get_abi at hab
      cases habi : m.sig.abi with
      | none => rw [habi] at hab; exact absurd hab (by simp)
      | some o => rw [habi] at hab; simpa using hab
    obtain ⟨attrs, vis, sig⟩ := m
    obtain ⟨abi, idn, gen, inp, out⟩ := sig
    simp only at hv hsig
    subst hv hsig
    exact ⟨rfl, rfl⟩

/-- C8 witness: the amended claim at a public extern-jni method and at
a non-public extern-jni method. -/
theorem C8_classification_after_cleaning_amended_witness :
    (ImplExportVisitor.classify
        (ImplItem.method
          { attrs := [], vis := Visibility.pub,
            sig := { abi := some (some "jni"), ident := "baz", generics := ⟨[]⟩,
                     inputs := [], output := ReturnType.default } }) =
      ImplItemType.Exported ∧
     ImplExportVisitor.classify
        (ImplItem.method
          (ImplCleaner.fold_impl_item_method
            { attrs := [], vis := Visibility.pub,
              sig := { abi := some (some "jni"), ident := "baz", generics := ⟨[]⟩,
                       inputs := [], output := ReturnType.default } })) =
      ImplItemType.Unexported) ∧
    ImplExportVisitor.classify
        (ImplItem.method
          (ImplCleaner.fold_impl_item_method
            { attrs := [], vis := Visibility.inherited,
              sig := { abi := some (some "jni"), ident := "baz", generics := ⟨[]⟩,
                       inputs := [], output := ReturnType.default } })) =
      ImplExportVisitor.classify
        (ImplItem.method
          { attrs := [], vis := Visibility.inherited,
            sig := { abi := some (some "jni"), ident := "baz", generics := ⟨[]⟩,
                     inputs := [], output := ReturnType.default } }) :=
  ⟨C8_classification_after_cleaning_amended.2 _ rfl rfl,
   C8_classification_after_cleaning_amended.1 _ (fun hc => nomatch hc.1)⟩

/-- C4: the enclosing type's lifetimes are merged only for
self-methods.  Modelled from the spec for the gating itself (the
exported-method transformer lives in exported.rs, outside src/): for a
method with no receiver and no parameter named self, the produced
signature (hence its generics) is identical to the one produced with
no enclosing-type lifetimes at all. -/
theorem C4_struct_lifetimes_only_for_self_methods (signature : Signature)
    (struct_type : Path) (struct_name : String)
    (struct_lifetimes : List LifetimeDef) (call_type : CallType)
    (h : is_self_method signature = false) :
    exported_method_signature signature struct_type struct_name struct_lifetimes call_type =
      exported_method_signature signature struct_type struct_name [] call_type := by
  unfold exported_method_signature
  simp [h]

/-- C4 witness: a free method with one plain typed parameter, merged
against a nonempty enclosing-lifetime list. -/
theorem C4_struct_lifetimes_only_for_self_methods_witness :
    exported_method_signature
      { abi := none, ident := "bar", generics := ⟨[]⟩,
        inputs := [FnArg.typed { attrs := [], pat := Pat.ident false false "x" false,
                                 ty := Ty.path ⟨[⟨"i32", none⟩]⟩ }],
        output := ReturnType.default }
      ⟨[⟨"Foo", some [GenericArgument.lifetime "env"]⟩]⟩ "Foo" [⟨"env", []⟩]
      CallType.unchecked =
    exported_method_signature
      { abi := none, ident := "bar", generics := ⟨[]⟩,
        inputs := [FnArg.typed { attrs := [], pat := Pat.ident false false "x" false,
                                 ty := Ty.path ⟨[⟨"i32", none⟩]⟩ }],
        output := ReturnType.default }
      ⟨[⟨"Foo", some [GenericArgument.lifetime "env"]⟩]⟩ "Foo" []
      CallType.unchecked :=
  C4_struct_lifetimes_only_for_self_methods _ _ _ _ _ (by decide)

/-- Bind on a successful Except value applies the continuation. -/
theorem except_bind_ok {α β : Type} (a : α) (f : α → Except String β) :
    (Except.ok a >>= f) = f a :=
  rfl

/-- A mapM over Except succeeds when every element does, preserving
length, and every output comes from some input. -/
theorem list_mapM_except_ok {α β : Type} (f : α → Except String β) :
    ∀ l : List α, (∀ a ∈ l, ∃ b, f a = Except.ok b) →
      ∃ bs : List β, l.mapM f = Except.ok bs ∧ bs.length = l.length ∧
        ∀ b ∈ bs, ∃ a ∈ l, f a = Except.ok b := by
  intro l
  induction l with
  | nil => intro h; exact ⟨[], rfl, rfl, fun b hb => absurd hb (by simp)⟩
  | cons a l ih =>
    intro h
    obtain ⟨b, hb⟩ := h a (List.mem_cons_self a l)
    obtain ⟨bs, hbs, hlen, hmem⟩ := ih (fun x hx => h x (List.mem_cons_of_mem a hx))
    refine ⟨b :: bs, ?_, by simp [hlen], ?_⟩
    · rw [List.mapM_cons, hb, hbs]; rfl
    · intro c hc
      rcases List.mem_cons.mp hc with rfl | hc'
      · exact ⟨a, List.mem_cons_self a l, hb⟩
      · obtain ⟨x, hx, hfx⟩ := hmem c hc'
        exact ⟨x, List.mem_cons_of_mem a hx, hfx⟩

/-- C7: in the synthesized call expression, when an explicit
environment-handle argument was detected the literal argument to the
environment handle is inserted at index 1 for self-methods and at
index 0 otherwise (growing the argument list by one); when none was
detected, no such argument appears: the argument list has exactly one
conversion expression per parameter and none of them is the
environment reference. -/
theorem C7_env_argument_position (s : JNISignature)
    (hargs : ∀ a ∈ s.transformed_signature.inputs, typed_ident_arg a = true)
    (hlen : s.self_method = true → s.env_arg.isSome = true →
      1 ≤ s.transformed_signature.inputs.length) :
    ∃ args : List Expr,
      s.signature_call = Except.ok
        (Expr.call s.struct_name s.transformed_signature.ident args) ∧
      (s.env_arg.isSome = true →
        args.length = s.transformed_signature.inputs.length + 1 ∧
        args.get? (if s.self_method then 1 else 0) = some Expr.refEnv) ∧
      (s.env_arg.isSome = false →
        args.length = s.transformed_signature.inputs.length ∧
        ∀ e ∈ args, e ≠ Expr.refEnv) := by
  have h1 : ∀ a ∈ s.transformed_signature.inputs,
      ∃ p : PatType,
        (match a with
         | FnArg.receiver _ _ _ =>
           (Except.error "Bug -- found receiver type in freestanding signature" :
             Except String PatType)
         | FnArg.typed p => Except.ok p) = Except.ok p := by
    intro a ha
    have := hargs a ha
    cases a with
    | receiver attrs r m => exact absurd this (by simp [typed_ident_arg])
    | typed t => exact ⟨t, rfl⟩
  obtain ⟨pats, hpats, hplen, hpmem⟩ :=
    list_mapM_except_ok _ s.transformed_signature.inputs h1
  have hiter : s.args_iter = Except.ok pats := hpats
  have h2 : ∀ p ∈ pats, ∃ e, signature_call_input s.call_type p = Except.ok e := by
    intro p hp
    obtain ⟨a, ha, hfa⟩ := hpmem p hp
    have hta := hargs a ha
    cases a with
    | receiver attrs r m => exact absurd hfa (by simp)
    | typed t =>
      have ht : t = p := by simpa using hfa
      subst ht
      simp only [typed_ident_arg] at hta
      cases hpat : t.pat with
      | ident byRef m n subpat =>
        refine ⟨match s.call_type with
                | CallType.safe _ => Expr.tryFromJavaValue n
                | CallType.unchecked => Expr.fromJavaValue n, ?_⟩
        unfold signature_call_input
        rw [hpat]
      | wild => rw [hpat] at hta; exact absurd hta (by simp)
      | other => rw [hpat] at hta; exact absurd hta (by simp)
  obtain ⟨exprs, hexprs, helen, hemem⟩ := list_mapM_except_ok _ pats h2
  have hnoenv : ∀ e ∈ exprs, e ≠ Expr.refEnv := by
    intro e he
    obtain ⟨p, hp, hfp⟩ := hemem e he
    cases hpat : p.pat with
    | ident byRef m n subpat =>
      unfold signature_call_input at hfp
      rw [hpat] at hfp
      cases hct : s.call_type with
      | safe params =>
        rw [hct] at hfp
        have he : Expr.tryFromJavaValue n = e := by simpa using hfp
        rw [← he]
        exact fun hc => Expr.noConfusion hc
      | unchecked =>
        rw [hct] at hfp
        have he : Expr.fromJavaValue n = e := by simpa using hfp
        rw [← he]
        exact fun hc => Expr.noConfusion hc
    | wild =>
      unfold signature_call_input at hfp
      rw [hpat] at hfp
      exact absurd hfp (by simp)
    | other =>
      unfold signature_call_input at hfp
      rw [hpat] at hfp
      exact absurd hfp (by simp)
  have hel : exprs.length = s.transformed_signature.inputs.length :=
    helen.trans hplen
  cases henv : s.env_arg.isSome with
  | false =>
    refine ⟨exprs, ?_, ?_, ?_⟩
    · simp only [JNISignature.signature_call, hiter, except_bind_ok, hexprs, henv,
        Bool.false_eq_true, if_false]
    · exact fun hc => Bool.noConfusion hc
    · intro _; exact ⟨hel, hnoenv⟩
  | true =>
    cases hself : s.self_method with
    | false =>
      refine ⟨exprs.insertIdx 0 Expr.refEnv, ?_, ?_, ?_⟩
      · have hc : (0 : Nat) ≤ exprs.length := Nat.zero_le _
        simp only [JNISignature.signature_call, hiter, except_bind_ok, hexprs, henv,
          hself, if_true, Bool.false_eq_true, if_false, hc, except_bind_ok]
      · intro _
        refine ⟨?_, ?_⟩
        · rw [List.length_insertIdx 0 exprs (Nat.zero_le _), hel]
        · rw [if_neg (by simp [hself])]
          rfl
      · exact fun hc => Bool.noConfusion hc
    | true =>
      have hone : 1 ≤ exprs.length := by
        rw [hel]; exact hlen hself henv
      refine ⟨exprs.insertIdx 1 Expr.refEnv, ?_, ?_, ?_⟩
      · simp only [JNISignature.signature_call, hiter, except_bind_ok, hexprs, henv,
          hself, if_true, hone, except_bind_ok]
      · intro _
        refine ⟨?_, ?_⟩
        · rw [List.length_insertIdx 1 exprs hone, hel]
        · rw [if_pos (by simp [hself])]
          cases exprs with
          | nil => exact absurd hone (by simp)
          | cons e rest => rfl
      · exact fun hc => Bool.noConfusion hc

/-- C7 witness: a self-method with a detected environment argument and
two remaining parameters; the synthesized call places the environment
reference at index 1. -/
theorem C7_env_argument_position_witness :
    ∃ args : List Expr,
      ({ transformed_signature :=
           { abi := none, ident := "bar", generics := ⟨[]⟩,
             inputs :=
               [FnArg.typed { attrs := [], pat := Pat.ident false false "recv" false,
                              ty := Ty.other },
                FnArg.typed { attrs := [], pat := Pat.ident false false "x" false,
                              ty := Ty.other }],
             output := ReturnType.default },
         call_type := CallType.unchecked, struct_name := "Foo", self_method := true,
         env_arg := some (FnArg.typed { attrs := [], pat := Pat.ident false false "e" false,
                                        ty := Ty.other }) } :
        JNISignature).signature_call = Except.ok (Expr.call "Foo" "bar" args) ∧
      (true = true →
        args.length = 2 + 1 ∧
        args.get? (if true then 1 else 0) = some Expr.refEnv) ∧
      (true = false →
        args.length = 2 ∧ ∀ e ∈ args, e ≠ Expr.refEnv) :=
  C7_env_argument_position _ (by decide) (by decide)

/-- C1 witness: both conjuncts at concrete inputs (unchecked parameter
type rewriting, safe call-argument synthesis). -/
theorem C1_conversion_selected_by_call_mode_witness :
    (∃ t : PatType, ∃ diags : List Diag, ∃ base : Ty,
      ({ struct_type := ⟨[⟨"Foo", none⟩]⟩, struct_name := "Foo", struct_lifetimes := [],
         fn_name := "bar", call_type := CallType.unchecked } :
        JNISignatureTransformer).fold_fn_arg
        (FnArg.typed { attrs := [], pat := Pat.ident false false "x" false,
                       ty := Ty.path ⟨[⟨"i32", none⟩]⟩ }) =
        Except.ok (FnArg.typed t, diags) ∧
      t.ty = Ty.assoc base ConvTrait.fromJavaValue ["env", "borrow"] "Source") ∧
    signature_call_input (CallType.safe none)
      { attrs := [], pat := Pat.ident false false "x" false, ty := Ty.other } =
      Except.ok (Expr.tryFromJavaValue "x") :=
  ⟨C1_conversion_selected_by_call_mode.1 _ _,
   C1_conversion_selected_by_call_mode.2 (CallType.safe none) _ false false "x" false rfl⟩

end Robusta
